import Mathlib

/-!
Shallow embedding of `src/lib/sqs.service.ts` (the `SqsService` class of
`nestjs-sqs`): the queue binding and lifecycle registry, its construction
from discovered handler metadata (`onModuleInit`), its shutdown pass
(`onModuleDestroy`), and the control-plane operations (`getQueueInfo`,
`purgeQueue`, `getQueueAttributes`, `getProducerQueueSize`, `send`,
`changeMessageVisibility`, `deleteMessage`, `deleteMessageBatch`).

External collaborators (the `sqs-consumer` / `sqs-producer` libraries, the
AWS client, and the NestJS discovery service) are modelled abstractly:
a created consumer or producer instance is a record exposing its transport
handle (`sqs`), its `queueUrl`, its wired callbacks and listeners; handler
functions and owner instances are identified by natural numbers; the JS
`Map` is an association list with `Map.get` / `Map.set` / `Map.has`
semantics; a thrown exception is the `Except.error` branch carrying the
error message.
-/

/-- Logical queue name, the registry key (`QueueName` in `sqs.types`). -/
abbrev QueueName := String

/-- Model of `sqs-consumer`'s `StopOptions` (`{ abort?: boolean }`). -/
structure StopOptions where
  abort : Option Bool := none
deriving Repr, DecidableEq

/-- Result of JS `fn.bind(receiver)`: the function identity together with
the receiver instance it was bound to.  Functions and instances are
identified by numeric ids. -/
structure BoundFn where
  fn : Nat
  receiver : Nat
deriving Repr, DecidableEq

/-- Metadata attached by `@SqsMessageHandler` (`SqsMessageHandlerMeta`):
the queue name and the optional `batch` flag.  The code tests
`meta.batch === true`, so the flag is kept as `Option Bool`. -/
structure SqsMessageHandlerMeta where
  name : QueueName
  batch : Option Bool := none
deriving Repr, DecidableEq

/-- Metadata attached by `@SqsConsumerEventHandler`
(`SqsConsumerEventHandlerMeta`): queue name and event name. -/
structure SqsConsumerEventHandlerMeta where
  name : QueueName
  eventName : String
deriving Repr, DecidableEq

/-- The part of a `DiscoveredMethod` the service reads: the handler
function and `parentClass.instance`, both as numeric identities. -/
structure DiscoveredMethod where
  handler : Nat
  parentInstance : Nat
deriving Repr, DecidableEq

/-- One element of `discover.providerMethodsWithMetaAtKey(SQS_CONSUMER_METHOD)`. -/
structure MessageHandlerRecord where
  meta : SqsMessageHandlerMeta
  discoveredMethod : DiscoveredMethod
deriving Repr, DecidableEq

/-- One element of `discover.providerMethodsWithMetaAtKey(SQS_CONSUMER_EVENT_HANDLER)`. -/
structure EventHandlerRecord where
  meta : SqsConsumerEventHandlerMeta
  discoveredMethod : DiscoveredMethod
deriving Repr, DecidableEq

/-- `messageHandlers.find(({ meta }) => meta.name === name)`. -/
def findMessageHandler (mh : List MessageHandlerRecord) (name : QueueName) :
    Option MessageHandlerRecord :=
  match mh with
  | [] => none
  | h :: rest => if h.meta.name = name then some h else findMessageHandler rest name

/-- `eventHandlers.filter(({ meta }) => meta.name === name)`. -/
def filterEventHandlers (eh : List EventHandlerRecord) (name : QueueName) :
    List EventHandlerRecord :=
  match eh with
  | [] => []
  | e :: rest =>
      if e.meta.name = name then e :: filterEventHandlers rest name
      else filterEventHandlers rest name

/-- JS `Map.get`: the value stored under the key, if any. -/
def mapGet {α : Type} (m : List (QueueName × α)) (k : QueueName) : Option α :=
  match m with
  | [] => none
  | (k', v) :: rest => if k' = k then some v else mapGet rest k

/-- JS `Map.has`. -/
def mapHas {α : Type} (m : List (QueueName × α)) (k : QueueName) : Bool :=
  (mapGet m k).isSome

/-- JS `Map.set`: replaces the value in place when the key is present,
appends otherwise. -/
def mapSet {α : Type} (m : List (QueueName × α)) (k : QueueName) (v : α) :
    List (QueueName × α) :=
  match m with
  | [] => [(k, v)]
  | (k', v') :: rest =>
      if k' = k then (k, v) :: rest else (k', v') :: mapSet rest k v

/-- The running poller returned by `Consumer.create`, restricted to what
the service reads off it: the transport handle `sqs` and `queueUrl`
(accessed through an unchecked cast in `getQueueInfo`, hence the `Option`
on the handle), the wired message callback(s), and the listener list built
by `addListener`. -/
structure ConsumerInstance where
  sqs : Option Nat
  queueUrl : String
  handleMessage : Option BoundFn := none
  handleMessageBatch : Option BoundFn := none
  listeners : List (String × BoundFn) := []
deriving Repr, DecidableEq

/-- The sender returned by `Producer.create`: transport handle, queue url,
and the current internal outbound queue depth reported by `queueSize()`. -/
structure ProducerInstance where
  sqs : Option Nat
  queueUrl : String
  queueSizeVal : Nat := 0
deriving Repr, DecidableEq

/-- One configured consumer queue (`SqsConsumerOptions`): its `name`, the
optional per-queue `stopOptions`, and the remaining consumer options, of
which the model keeps the queue url and the transport handle the created
instance will expose. -/
structure ConsumerConfig where
  name : QueueName
  stopOptions : Option StopOptions := none
  queueUrl : String := ""
  sqs : Nat := 0
deriving Repr, DecidableEq

/-- One configured producer queue (`SqsProducerOptions`). -/
structure ProducerConfig where
  name : QueueName
  queueUrl : String := ""
  sqs : Nat := 0
deriving Repr, DecidableEq

/-- The module options injected as `SQS_OPTIONS` (`SqsOptions`):
`consumers?`, `producers?` (absent lists modelled as `[]`) and
`globalStopOptions?`. -/
structure SqsOptions where
  consumers : List ConsumerConfig := []
  producers : List ProducerConfig := []
  globalStopOptions : Option StopOptions := none
deriving Repr, DecidableEq

/-- Value type of the `consumers` map (`SqsConsumerMapValues`):
`{ instance, stopOptions }`.  `instance` is a Lean keyword, so the field
is named `inst`. -/
structure ConsumerMapValue where
  inst : ConsumerInstance
  stopOptions : StopOptions
deriving Repr, DecidableEq

/-- The registry's two maps: `consumers` and `producers`. -/
structure ServiceState where
  consumers : List (QueueName × ConsumerMapValue) := []
  producers : List (QueueName × ProducerInstance) := []
deriving Repr, DecidableEq

/-- Model of `Consumer.create({...consumerOptions, ...(isBatchHandler ?
{handleMessageBatch: bound} : {handleMessage: bound})})`: the external
library returns a poller exposing the configured url and transport handle,
with exactly the one callback present in the options object, and no
listeners yet.  `bound` is `metadata.discoveredMethod.handler.bind(
metadata.discoveredMethod.parentClass.instance)`. -/
def consumerCreate (cfg : ConsumerConfig) (md : MessageHandlerRecord) :
    ConsumerInstance :=
  { sqs := some cfg.sqs
    queueUrl := cfg.queueUrl
    handleMessage :=
      if md.meta.batch = some true then none
      else some ⟨md.discoveredMethod.handler, md.discoveredMethod.parentInstance⟩
    handleMessageBatch :=
      if md.meta.batch = some true then
        some ⟨md.discoveredMethod.handler, md.discoveredMethod.parentInstance⟩
      else none
    listeners := [] }

/-- Model of `Producer.create(producerOptions)`. -/
def producerCreate (cfg : ProducerConfig) : ProducerInstance :=
  { sqs := some cfg.sqs, queueUrl := cfg.queueUrl, queueSizeVal := 0 }

/-- The `for (const eventMetadata of eventsMetadata)` loop over the
filtered event-handler records: each iteration calls
`consumer.addListener(eventMetadata.meta.eventName,
eventMetadata.discoveredMethod.handler.bind(
metadata.discoveredMethod.parentClass.instance))`.  Note the receiver is
`metadata`'s (the matched MESSAGE handler's) parent instance, exactly as
in the source; the `if (eventMetadata)` guard inside the loop is always
true for array elements and is dropped. -/
def attachEventHandlers (c : ConsumerInstance) (md : MessageHandlerRecord) :
    List EventHandlerRecord → ConsumerInstance
  | [] => c
  | e :: rest =>
      attachEventHandlers
        { c with
            listeners := c.listeners ++
              [(e.meta.eventName,
                ⟨e.discoveredMethod.handler, md.discoveredMethod.parentInstance⟩)] }
        md rest

/-- Error message of `throw new Error` for a duplicate consumer name. -/
def dupConsumerMsg (n : QueueName) : String := s!"Consumer already exists: {n}"

/-- Error message of `throw new Error` for a duplicate producer name. -/
def dupProducerMsg (n : QueueName) : String := s!"Producer already exists: {n}"

/-- Observable events of `onModuleInit`, in program order: backend
resource creation (`Consumer.create` / `Producer.create`), map stores,
the `logger.warn` for a missing handler, and `instance.start()`. -/
inductive InitEvent where
  | createConsumer (name : QueueName)
  | storeConsumer (name : QueueName)
  | createProducer (name : QueueName)
  | storeProducer (name : QueueName)
  | warn (name : QueueName)
  | startConsumer (name : QueueName)
deriving Repr, DecidableEq

/-- The `this.options.consumers?.forEach(...)` pass of `onModuleInit`:
per entry, throw on a duplicate name, warn-and-skip when no message
handler matches, otherwise create the poller, attach the event listeners
and store the map entry.  A thrown error aborts the whole pass
(`Except.error`); the event trace up to the abort is returned alongside. -/
def processConsumers (mh : List MessageHandlerRecord) (eh : List EventHandlerRecord)
    (gso : StopOptions) (st : ServiceState) :
    List ConsumerConfig → List InitEvent × Except String ServiceState
  | [] => ([], .ok st)
  | cfg :: rest =>
      if mapHas st.consumers cfg.name then
        ([], .error (dupConsumerMsg cfg.name))
      else
        match findMessageHandler mh cfg.name with
        | none =>
            let p := processConsumers mh eh gso st rest
            (.warn cfg.name :: p.1, p.2)
        | some md =>
            let inst := attachEventHandlers (consumerCreate cfg md) md
              (filterEventHandlers eh cfg.name)
            let st' : ServiceState :=
              { st with
                  consumers := mapSet st.consumers cfg.name
                    { inst := inst, stopOptions := cfg.stopOptions.getD gso } }
            let p := processConsumers mh eh gso st' rest
            (.createConsumer cfg.name :: .storeConsumer cfg.name :: p.1, p.2)

/-- The `this.options.producers?.forEach(...)` pass of `onModuleInit`. -/
def processProducers (st : ServiceState) :
    List ProducerConfig → List InitEvent × Except String ServiceState
  | [] => ([], .ok st)
  | cfg :: rest =>
      if mapHas st.producers cfg.name then
        ([], .error (dupProducerMsg cfg.name))
      else
        let st' : ServiceState :=
          { st with producers := mapSet st.producers cfg.name (producerCreate cfg) }
        let p := processProducers st' rest
        (.createProducer cfg.name :: .storeProducer cfg.name :: p.1, p.2)

/-- The final `for (const consumer of this.consumers.values())
consumer.instance.start()` loop, as trace events. -/
def startEvents (st : ServiceState) : List InitEvent :=
  st.consumers.map (fun p => .startConsumer p.1)

/-- `SqsService.onModuleInit`: resolve the global stop options, run the
consumer pass, then the producer pass, then start every stored consumer.
Returns the full event trace and the resulting registry (or the first
thrown error). -/
def onModuleInit (opts : SqsOptions) (mh : List MessageHandlerRecord)
    (eh : List EventHandlerRecord) : List InitEvent × Except String ServiceState :=
  let gso := opts.globalStopOptions.getD {}
  let p1 := processConsumers mh eh gso {} opts.consumers
  match p1.2 with
  | .error e => (p1.1, .error e)
  | .ok st1 =>
      let p2 := processProducers st1 opts.producers
      match p2.2 with
      | .error e => (p1.1 ++ p2.1, .error e)
      | .ok st2 => (p1.1 ++ p2.1 ++ startEvents st2, .ok st2)

/-- `SqsService.onModuleDestroy`: `for (const consumer of
this.consumers.values()) consumer.instance.stop(consumer.stopOptions)`.
Whether a given instance's `stop` call throws is external behaviour,
supplied as `stopFails` keyed by queue name (names are unique in the map).
Returns the list of stop invocations actually made, in order, each with
the stop options passed, and the error that escaped the loop, if any.
There is no try/catch in the source: a throw aborts the loop. -/
def onModuleDestroy (stopFails : QueueName → Bool) :
    List (QueueName × ConsumerMapValue) → List (QueueName × StopOptions) × Option String
  | [] => ([], none)
  | (n, v) :: rest =>
      if stopFails n then
        ([(n, v.stopOptions)], some "stop failed")
      else
        let p := onModuleDestroy stopFails rest
        ((n, v.stopOptions) :: p.1, p.2)

/-- A JavaScript value that is not a string, as far as `JSON.stringify`
is concerned: the structured values a message body can carry. -/
inductive JsonVal where
  | jnull : JsonVal
  | jbool : Bool → JsonVal
  | jnum : Int → JsonVal
  | jstr : String → JsonVal
  | jarr : List JsonVal → JsonVal
  | jobj : List (String × JsonVal) → JsonVal
deriving Repr

/-- String-literal escaping of `JSON.stringify` (for bodies without
control characters: quote and backslash). -/
def jsonEscape (s : String) : String :=
  String.join (s.toList.map (fun c =>
    if c = '"' then "\\\"" else if c = '\\' then "\\\\" else String.singleton c))

mutual

/-- Model of the builtin `JSON.stringify` on the values of `JsonVal`. -/
def jsonStringify : JsonVal → String
  | .jnull => "null"
  | .jbool true => "true"
  | .jbool false => "false"
  | .jnum n => toString n
  | .jstr s => "\"" ++ jsonEscape s ++ "\""
  | .jarr xs => "[" ++ jsonStringifyArr xs ++ "]"
  | .jobj fs => "\x7b" ++ jsonStringifyObj fs ++ "\x7d"

/-- Comma-joined renderings of an array's elements. -/
def jsonStringifyArr : List JsonVal → String
  | [] => ""
  | [x] => jsonStringify x
  | x :: y :: rest => jsonStringify x ++ "," ++ jsonStringifyArr (y :: rest)

/-- Comma-joined renderings of an object's fields. -/
def jsonStringifyObj : List (String × JsonVal) → String
  | [] => ""
  | [(k, v)] => "\"" ++ jsonEscape k ++ "\":" ++ jsonStringify v
  | (k, v) :: f :: rest =>
      "\"" ++ jsonEscape k ++ "\":" ++ jsonStringify v ++ "," ++
        jsonStringifyObj (f :: rest)

end

/-- A message body: either a JS string (`typeof body === 'string'`) or
any other value. -/
inductive Body where
  | bstr : String → Body
  | bval : JsonVal → Body
deriving Repr

/-- The `Message` record passed to `send`.
Modelled from the spec: `sqs.types.ts` is not under `src/`; §3 gives
`Message` as `{ body: arbitrary-structured-value-or-string, attributes?,
groupId?, ... }`, so the body plus a representative set of optional
pass-through fields are kept. -/
structure Message where
  id : Option String := none
  body : Body
  groupId : Option String := none
  deduplicationId : Option String := none
  delaySeconds : Option Nat := none
deriving Repr

/-- The per-message transform inside `send`: `let body = message.body;
if (typeof body !== 'string') { body = JSON.stringify(body); }
return {...message, body};`. -/
def serializeMessage (m : Message) : Message :=
  match m.body with
  | .bstr _ => m
  | .bval v => { m with body := .bstr (jsonStringify v) }

/-- `const originalMessages = Array.isArray(payload) ? payload : [payload]`. -/
def payloadToList : Message ⊕ List Message → List Message
  | .inl m => [m]
  | .inr l => l

/-- Error message of `throw new Error` for a missing producer. -/
def noProducerMsg (n : QueueName) : String := s!"Producer does not exist: {n}"

/-- Error message of `throw new Error` for a missing consumer. -/
def noConsumerMsg (n : QueueName) : String := s!"Consumer does not exist: {n}"

/-- Error message of `throw new Error` when a name is in neither map. -/
def notFoundMsg (n : QueueName) : String :=
  s!"Consumer/Producer does not exist: {n}"

/-- `SqsService.send`: throw unless the name is a registered producer
(`if (!this.producers.has(name))`, written as the equivalent match on
`Map.get`), normalise the payload to an array, serialize each non-string
body, and hand the mapped messages to `producer.send`.  The result is the
dispatched message list. -/
def send (st : ServiceState) (name : QueueName) (payload : Message ⊕ List Message) :
    Except String (List Message) :=
  match mapGet st.producers name with
  | none => .error (noProducerMsg name)
  | some _ => .ok ((payloadToList payload).map serializeMessage)

/-- The messages actually handed to a producer by a `send` call: none
when the call threw. -/
def dispatchedOf : Except String (List Message) → List Message
  | .ok l => l
  | .error _ => []

/-- `SqsService.getProducerQueueSize`: throw unless the name is a
registered producer, else `this.producers.get(name).queueSize()`. -/
def getProducerQueueSize (st : ServiceState) (name : QueueName) :
    Except String Nat :=
  match mapGet st.producers name with
  | none => .error (noProducerMsg name)
  | some p => .ok p.queueSizeVal

/-- The resolved `{ sqs, queueUrl }` pair returned by `getQueueInfo`. -/
structure QueueInfo where
  sqs : Nat
  queueUrl : String
deriving Repr, DecidableEq

/-- `SqsService.getQueueInfo`: throw when the name is in neither map;
otherwise destructure `{sqs, queueUrl}` from
`this.consumers.get(name)?.instance ?? this.producers.get(name)` and
throw `SQS instance does not exist` when the handle is absent (`!sqs`). -/
def getQueueInfo (st : ServiceState) (name : QueueName) :
    Except String QueueInfo :=
  match mapGet st.consumers name, mapGet st.producers name with
  | none, none => .error (notFoundMsg name)
  | some v, _ =>
      match v.inst.sqs with
      | none => .error "SQS instance does not exist"
      | some s => .ok ⟨s, v.inst.queueUrl⟩
  | none, some p =>
      match p.sqs with
      | none => .error "SQS instance does not exist"
      | some s => .ok ⟨s, p.queueUrl⟩

/-- The backend commands the control-plane operations build and send.
A `deleteBatch` entry is `{Id: message.MessageId, ReceiptHandle:
message.ReceiptHandle}`. -/
inductive SqsCommand where
  | purge (queueUrl : String)
  | getAttributes (queueUrl : String) (attributeNames : List String)
  | changeVisibility (queueUrl : String) (receiptHandle : String) (visibilityTimeout : Int)
  | deleteOne (queueUrl : String) (receiptHandle : String)
  | deleteBatch (queueUrl : String) (entries : List (Option String × Option String))
deriving Repr, DecidableEq

/-- The backend commands a control-plane call issued, with the transport
handle each was sent on: none when the call threw before `sqs.send`. -/
def issuedOf : Except String (Nat × SqsCommand) → List (Nat × SqsCommand)
  | .ok c => [c]
  | .error _ => []

/-- `SqsService.purgeQueue`: resolve via `getQueueInfo`, then
`sqs.send(new PurgeQueueCommand({QueueUrl: queueUrl}))`. -/
def purgeQueue (st : ServiceState) (name : QueueName) :
    Except String (Nat × SqsCommand) :=
  (getQueueInfo st name).map (fun qi => (qi.sqs, .purge qi.queueUrl))

/-- `SqsService.getQueueAttributes`: resolve via `getQueueInfo`, then
`sqs.send(new GetQueueAttributesCommand({QueueUrl, AttributeNames:
['All']}))`. -/
def getQueueAttributes (st : ServiceState) (name : QueueName) :
    Except String (Nat × SqsCommand) :=
  (getQueueInfo st name).map (fun qi => (qi.sqs, .getAttributes qi.queueUrl ["All"]))

/-- The `(this.consumers.get(name)?.instance ?? this.producers.get(name))`
cast used (without a `!sqs` check) by `changeMessageVisibility`,
`deleteMessage` and `deleteMessageBatch` after their consumer-existence
guard; calling `sqs.send` on an absent handle is the JS `TypeError`. -/
def consumerFirstInfo (st : ServiceState) (name : QueueName) :
    Option (Option Nat × String) :=
  match mapGet st.consumers name with
  | some v => some (v.inst.sqs, v.inst.queueUrl)
  | none => (mapGet st.producers name).map (fun p => (p.sqs, p.queueUrl))

/-- Issue one command over the handle resolved by `consumerFirstInfo`,
modelling the JS `TypeError` when the destructured `sqs` is absent. -/
def sendOnResolved (info : Option (Option Nat × String))
    (mk : String → SqsCommand) : Except String (Nat × SqsCommand) :=
  match info with
  | none => .error "TypeError: cannot destructure undefined"
  | some (none, _) => .error "TypeError: sqs is undefined"
  | some (some s, url) => .ok (s, mk url)

/-- `SqsService.changeMessageVisibility`: throw unless the name is a
registered consumer, then send a `ChangeMessageVisibilityCommand`. -/
def changeMessageVisibility (st : ServiceState) (name : QueueName)
    (receiptHandle : String) (visibilityTimeout : Int) :
    Except String (Nat × SqsCommand) :=
  if mapHas st.consumers name = false then .error (noConsumerMsg name)
  else
    sendOnResolved (consumerFirstInfo st name)
      (fun url => .changeVisibility url receiptHandle visibilityTimeout)

/-- `SqsService.deleteMessage`: throw unless the name is a registered
consumer, then send a `DeleteMessageCommand`. -/
def deleteMessage (st : ServiceState) (name : QueueName)
    (receiptHandle : String) : Except String (Nat × SqsCommand) :=
  if mapHas st.consumers name = false then .error (noConsumerMsg name)
  else
    sendOnResolved (consumerFirstInfo st name)
      (fun url => .deleteOne url receiptHandle)

/-- An element of the `messages` argument of `deleteMessageBatch`:
the two fields the code reads, both optional on the AWS wire type. -/
structure WireMessage where
  MessageId : Option String := none
  ReceiptHandle : Option String := none
deriving Repr, DecidableEq

/-- `SqsService.deleteMessageBatch`: throw unless the name is a
registered consumer, then send one `DeleteMessageBatchCommand` whose
entries are built from each message's id and receipt handle. -/
def deleteMessageBatch (st : ServiceState) (name : QueueName)
    (messages : List WireMessage) : Except String (Nat × SqsCommand) :=
  if mapHas st.consumers name = false then .error (noConsumerMsg name)
  else
    sendOnResolved (consumerFirstInfo st name)
      (fun url => .deleteBatch url
        (messages.map (fun m => (m.MessageId, m.ReceiptHandle))))

/-! ## Basic map lemmas -/

lemma mapHas_eq_false_iff {α : Type} (m : List (QueueName × α)) (k : QueueName) :
    mapHas m k = false ↔ mapGet m k = none := by
  cases h : mapGet m k <;> simp [mapHas, h]

lemma mapHas_eq_true_iff {α : Type} (m : List (QueueName × α)) (k : QueueName) :
    mapHas m k = true ↔ ∃ v, mapGet m k = some v := by
  simp [mapHas, Option.isSome_iff_exists]

lemma mapGet_set_self {α : Type} (m : List (QueueName × α)) (k : QueueName) (v : α) :
    mapGet (mapSet m k v) k = some v := by
  induction m with
  | nil => simp [mapSet, mapGet]
  | cons hd tl ih =>
      obtain ⟨k', v'⟩ := hd
      by_cases hk : k' = k
      · simp [mapSet, mapGet, hk]
      · simp [mapSet, mapGet, hk, ih]

lemma mapGet_set_ne {α : Type} (m : List (QueueName × α)) (k n : QueueName) (v : α)
    (h : k ≠ n) : mapGet (mapSet m k v) n = mapGet m n := by
  induction m with
  | nil => simp [mapSet, mapGet, h]
  | cons hd tl ih =>
      obtain ⟨k', v'⟩ := hd
      by_cases hk : k' = k
      · subst hk
        simp [mapSet, mapGet, h]
      · simp [mapSet, mapGet, hk, ih]

lemma mapHas_set {α : Type} (m : List (QueueName × α)) (k n : QueueName) (v : α) :
    mapHas (mapSet m k v) n = true ↔ (n = k ∨ mapHas m n = true) := by
  by_cases h : k = n
  · subst h
    simp [mapHas, mapGet_set_self]
  · rw [mapHas, mapHas, mapGet_set_ne m k n v h]
    have : ¬ n = k := fun hn => h hn.symm
    tauto

lemma mem_mapSet {α : Type} (m : List (QueueName × α)) (k : QueueName) (v : α)
    (p : QueueName × α) (hp : p ∈ mapSet m k v) : p = (k, v) ∨ p ∈ m := by
  induction m with
  | nil => simpa [mapSet] using hp
  | cons hd tl ih =>
      obtain ⟨k', v'⟩ := hd
      simp only [mapSet] at hp
      by_cases hk : k' = k
      · rw [if_pos hk] at hp
        rcases List.mem_cons.mp hp with h1 | h1
        · exact Or.inl h1
        · exact Or.inr (List.mem_cons_of_mem _ h1)
      · rw [if_neg hk] at hp
        rcases List.mem_cons.mp hp with h1 | h1
        · exact Or.inr (by rw [h1]; exact List.mem_cons_self _ _)
        · rcases ih h1 with h2 | h2
          · exact Or.inl h2
          · exact Or.inr (List.mem_cons_of_mem _ h2)

/-- C1: with two registered consumers whose first stop call throws, the
stop pass invokes only the first consumer's stop: the loop has no
try/catch, the exception escapes, and the second consumer's stop is never
called — refuting the claim that every consumer is still asked to stop. -/
theorem onModuleDestroy_aborts_after_first_throw :
    ((onModuleDestroy (fun n => n == "c1")
        [("c1", ⟨⟨some 1, "url1", none, none, []⟩, ⟨none⟩⟩),
         ("c2", ⟨⟨some 2, "url2", none, none, []⟩, ⟨none⟩⟩)]).1.map Prod.fst
      = ["c1"]) ∧
    ((onModuleDestroy (fun n => n == "c1")
        [("c1", ⟨⟨some 1, "url1", none, none, []⟩, ⟨none⟩⟩),
         ("c2", ⟨⟨some 2, "url2", none, none, []⟩, ⟨none⟩⟩)]).2
      = some "stop failed") := by
  constructor <;> rfl

/-- C2 counterexample: a configuration whose consumer list holds two
entries with the same name `"q"`, where no message handler matches `"q"`:
both entries are skipped with a warning, no duplicate-consumer error is
raised, and construction succeeds — refuting the claim that every
duplicate-name configuration fails. -/
theorem duplicate_consumer_without_handler_succeeds :
    ((onModuleInit ⟨[⟨"q", none, "", 0⟩, ⟨"q", none, "", 0⟩], [], none⟩ [] []).2
      = .ok ⟨[], []⟩) ∧
    ((onModuleInit ⟨[⟨"q", none, "", 0⟩, ⟨"q", none, "", 0⟩], [], none⟩ [] []).1
      = [.warn "q", .warn "q"]) := by
  constructor <;> rfl

/-- C6: `changeMessageVisibility`, `deleteMessage` and
`deleteMessageBatch` each throw the consumer-not-found error synchronously
when the name is absent from the consumer map — whatever the producer map
holds — and no backend command is issued. -/
theorem consumer_ops_fail_without_consumer (st : ServiceState) (name : QueueName)
    (rh : String) (vt : Int) (msgs : List WireMessage)
    (h : mapHas st.consumers name = false) :
    changeMessageVisibility st name rh vt = .error (noConsumerMsg name) ∧
    deleteMessage st name rh = .error (noConsumerMsg name) ∧
    deleteMessageBatch st name msgs = .error (noConsumerMsg name) ∧
    issuedOf (changeMessageVisibility st name rh vt) = [] ∧
    issuedOf (deleteMessage st name rh) = [] ∧
    issuedOf (deleteMessageBatch st name msgs) = [] := by
  refine ⟨?_, ?_, ?_, ?_, ?_, ?_⟩ <;>
    simp [changeMessageVisibility, deleteMessage, deleteMessageBatch, h, issuedOf]

/-- C6 witness: a state whose only registration of `"p"` is a producer. -/
theorem consumer_ops_fail_without_consumer_witness :
    changeMessageVisibility ⟨[], [("p", ⟨some 1, "url", 0⟩)]⟩ "p" "rh" 30
      = .error (noConsumerMsg "p") ∧
    deleteMessage ⟨[], [("p", ⟨some 1, "url", 0⟩)]⟩ "p" "rh"
      = .error (noConsumerMsg "p") ∧
    deleteMessageBatch ⟨[], [("p", ⟨some 1, "url", 0⟩)]⟩ "p" []
      = .error (noConsumerMsg "p") := by
  have h := consumer_ops_fail_without_consumer
    ⟨[], [("p", ⟨some 1, "url", 0⟩)]⟩ "p" "rh" 30 [] rfl
  exact ⟨h.1, h.2.1, h.2.2.1⟩

/-- C7: `send` and `getProducerQueueSize` each throw the
producer-not-found error synchronously when the name is absent from the
producer map — even when it is a registered consumer — and no message is
dispatched. -/
theorem producer_ops_fail_without_producer (st : ServiceState) (name : QueueName)
    (payload : Message ⊕ List Message)
    (h : mapHas st.producers name = false) :
    send st name payload = .error (noProducerMsg name) ∧
    dispatchedOf (send st name payload) = [] ∧
    getProducerQueueSize st name = .error (noProducerMsg name) := by
  rw [mapHas_eq_false_iff] at h
  refine ⟨?_, ?_, ?_⟩ <;> simp [send, getProducerQueueSize, h, dispatchedOf]

/-- C7 witness: a state registering `"q"` only as a consumer. -/
theorem producer_ops_fail_without_producer_witness :
    send ⟨[("q", ⟨⟨some 1, "url", none, none, []⟩, ⟨none⟩⟩)], []⟩ "q"
        (Sum.inl { body := Body.bstr "hello" })
      = .error (noProducerMsg "q") ∧
    getProducerQueueSize ⟨[("q", ⟨⟨some 1, "url", none, none, []⟩, ⟨none⟩⟩)], []⟩ "q"
      = .error (noProducerMsg "q") := by
  have h := producer_ops_fail_without_producer
    ⟨[("q", ⟨⟨some 1, "url", none, none, []⟩, ⟨none⟩⟩)], []⟩ "q"
    (Sum.inl { body := Body.bstr "hello" }) rfl
  exact ⟨h.1, h.2.2⟩

/-- C4: for a registered producer, `send` dispatches exactly the payload
messages mapped through the body transform: a string body passes through
with the whole message unchanged, a non-string body is replaced by its
`JSON.stringify` rendering with every other field preserved. -/
theorem send_serializes_nonstring_bodies (st : ServiceState) (name : QueueName)
    (payload : Message ⊕ List Message)
    (h : mapHas st.producers name = true) :
    send st name payload = .ok ((payloadToList payload).map serializeMessage) ∧
    (∀ m : Message, ∀ s : String, m.body = .bstr s → serializeMessage m = m) ∧
    (∀ m : Message, ∀ v : JsonVal, m.body = .bval v →
      serializeMessage m = { m with body := .bstr (jsonStringify v) }) := by
  rw [mapHas_eq_true_iff] at h
  obtain ⟨p, hp⟩ := h
  refine ⟨by simp [send, hp], ?_, ?_⟩
  · intro m s hm
    obtain ⟨mid, mbody, mg, md, ms⟩ := m
    simp only at hm
    subst hm
    rfl
  · intro m v hm
    obtain ⟨mid, mbody, mg, md, ms⟩ := m
    simp only at hm
    subst hm
    rfl

/-- C4 witness: the spec's example — a structured body `{a: 1}` is
dispatched as the string rendering, and a string body is left unchanged,
with the `groupId` field preserved in both. -/
theorem send_serializes_nonstring_bodies_witness :
    send ⟨[], [("Q", ⟨some 1, "url", 0⟩)]⟩ "Q"
        (Sum.inl ⟨some "m1", .bval (.jobj [("a", .jnum 1)]), some "g", none, none⟩)
      = .ok [⟨some "m1", .bstr "\x7b\"a\":1\x7d", some "g", none, none⟩] ∧
    send ⟨[], [("Q", ⟨some 1, "url", 0⟩)]⟩ "Q"
        (Sum.inl ⟨some "m2", .bstr "already-a-string", some "g", none, none⟩)
      = .ok [⟨some "m2", .bstr "already-a-string", some "g", none, none⟩] := by
  constructor
  · exact ((send_serializes_nonstring_bodies ⟨[], [("Q", ⟨some 1, "url", 0⟩)]⟩ "Q"
      (Sum.inl ⟨some "m1", .bval (.jobj [("a", .jnum 1)]), some "g", none, none⟩)
      rfl).1).trans rfl
  · exact ((send_serializes_nonstring_bodies ⟨[], [("Q", ⟨some 1, "url", 0⟩)]⟩ "Q"
      (Sum.inl ⟨some "m2", .bstr "already-a-string", some "g", none, none⟩)
      rfl).1).trans rfl

/-- C5: name resolution checks the consumer map first and falls back to
the producer map: a consumer entry with a present handle wins (and
`purgeQueue` / `getQueueAttributes` issue their commands on the
consumer's transport handle, whatever the producer map holds), a name
only in the producer map resolves to the producer's entry, and a name in
neither map fails with the not-found error. -/
theorem getQueueInfo_consumer_first (st : ServiceState) (name : QueueName) :
    (∀ v : ConsumerMapValue, ∀ h : Nat,
      mapGet st.consumers name = some v → v.inst.sqs = some h →
        getQueueInfo st name = .ok ⟨h, v.inst.queueUrl⟩ ∧
        purgeQueue st name = .ok (h, .purge v.inst.queueUrl) ∧
        getQueueAttributes st name = .ok (h, .getAttributes v.inst.queueUrl ["All"])) ∧
    (∀ p : ProducerInstance, ∀ h : Nat,
      mapGet st.consumers name = none → mapGet st.producers name = some p →
        p.sqs = some h → getQueueInfo st name = .ok ⟨h, p.queueUrl⟩) ∧
    (mapGet st.consumers name = none → mapGet st.producers name = none →
      getQueueInfo st name = .error (notFoundMsg name)) := by
  refine ⟨?_, ?_, ?_⟩
  · intro v hdl hv hs
    cases hget : mapGet st.producers name <;>
      simp [getQueueInfo, purgeQueue, getQueueAttributes, Except.map, hv, hs, hget]
  · intro p hdl hc hp hs
    simp [getQueueInfo, hc, hp, hs]
  · intro hc hp
    simp [getQueueInfo, hc, hp]

/-- C5 witness: `"q"` registered as consumer (handle 1) and producer
(handle 2) — purge goes to handle 1; `"r"` registered only as producer;
`"x"` registered nowhere. -/
theorem getQueueInfo_consumer_first_witness :
    purgeQueue
        ⟨[("q", ⟨⟨some 1, "curl", none, none, []⟩, ⟨none⟩⟩)], [("q", ⟨some 2, "purl", 0⟩)]⟩ "q"
      = .ok (1, .purge "curl") ∧
    getQueueInfo ⟨[], [("r", ⟨some 2, "purl", 0⟩)]⟩ "r" = .ok ⟨2, "purl"⟩ ∧
    getQueueInfo ⟨[], []⟩ "x" = .error (notFoundMsg "x") := by
  refine ⟨?_, ?_, ?_⟩
  · exact ((getQueueInfo_consumer_first
      ⟨[("q", ⟨⟨some 1, "curl", none, none, []⟩, ⟨none⟩⟩)], [("q", ⟨some 2, "purl", 0⟩)]⟩
      "q").1 ⟨⟨some 1, "curl", none, none, []⟩, ⟨none⟩⟩ 1 rfl rfl).2.1
  · exact (getQueueInfo_consumer_first ⟨[], [("r", ⟨some 2, "purl", 0⟩)]⟩ "r").2.1
      ⟨some 2, "purl", 0⟩ 2 rfl rfl rfl
  · exact (getQueueInfo_consumer_first ⟨[], []⟩ "x").2.2 rfl rfl

/-! ## Step equations for the construction passes -/

/-- The registry state after the store step of one consumer entry. -/
def storeConsumerState (eh : List EventHandlerRecord) (gso : StopOptions)
    (st : ServiceState) (cfg : ConsumerConfig) (md : MessageHandlerRecord) :
    ServiceState :=
  { st with
      consumers := mapSet st.consumers cfg.name
        { inst := attachEventHandlers (consumerCreate cfg md) md
            (filterEventHandlers eh cfg.name)
          stopOptions := cfg.stopOptions.getD gso } }

lemma processConsumers_cons_dup (mh : List MessageHandlerRecord)
    (eh : List EventHandlerRecord) (gso : StopOptions) (st : ServiceState)
    (cfg : ConsumerConfig) (rest : List ConsumerConfig)
    (h : mapHas st.consumers cfg.name = true) :
    processConsumers mh eh gso st (cfg :: rest) =
      ([], .error (dupConsumerMsg cfg.name)) := by
  simp [processConsumers, h]

lemma processConsumers_cons_warn (mh : List MessageHandlerRecord)
    (eh : List EventHandlerRecord) (gso : StopOptions) (st : ServiceState)
    (cfg : ConsumerConfig) (rest : List ConsumerConfig)
    (h : mapHas st.consumers cfg.name = false)
    (hf : findMessageHandler mh cfg.name = none) :
    processConsumers mh eh gso st (cfg :: rest) =
      (.warn cfg.name :: (processConsumers mh eh gso st rest).1,
        (processConsumers mh eh gso st rest).2) := by
  simp [processConsumers, h, hf]

lemma processConsumers_cons_store (mh : List MessageHandlerRecord)
    (eh : List EventHandlerRecord) (gso : StopOptions) (st : ServiceState)
    (cfg : ConsumerConfig) (rest : List ConsumerConfig) (md : MessageHandlerRecord)
    (h : mapHas st.consumers cfg.name = false)
    (hf : findMessageHandler mh cfg.name = some md) :
    processConsumers mh eh gso st (cfg :: rest) =
      (.createConsumer cfg.name :: .storeConsumer cfg.name ::
          (processConsumers mh eh gso (storeConsumerState eh gso st cfg md) rest).1,
        (processConsumers mh eh gso (storeConsumerState eh gso st cfg md) rest).2) := by
  simp [processConsumers, h, hf, storeConsumerState]

/-- The registry state after the store step of one producer entry. -/
def storeProducerState (st : ServiceState) (cfg : ProducerConfig) : ServiceState :=
  { st with producers := mapSet st.producers cfg.name (producerCreate cfg) }

lemma processProducers_cons_dup (st : ServiceState) (cfg : ProducerConfig)
    (rest : List ProducerConfig) (h : mapHas st.producers cfg.name = true) :
    processProducers st (cfg :: rest) = ([], .error (dupProducerMsg cfg.name)) := by
  simp [processProducers, h]

lemma processProducers_cons_store (st : ServiceState) (cfg : ProducerConfig)
    (rest : List ProducerConfig) (h : mapHas st.producers cfg.name = false) :
    processProducers st (cfg :: rest) =
      (.createProducer cfg.name :: .storeProducer cfg.name ::
          (processProducers (storeProducerState st cfg) rest).1,
        (processProducers (storeProducerState st cfg) rest).2) := by
  simp [processProducers, h, storeProducerState]

/-! ## C9: start happens only after the registry is fully built -/

/-- Whether an init event is an `instance.start()` call. -/
def InitEvent.isStart : InitEvent → Bool
  | .startConsumer _ => true
  | _ => false

/-- Whether an init event constructs or stores a registry entry. -/
def InitEvent.isConstruction : InitEvent → Bool
  | .createConsumer _ => true
  | .storeConsumer _ => true
  | .createProducer _ => true
  | .storeProducer _ => true
  | _ => false

lemma onModuleInit_eq (opts : SqsOptions) (mh : List MessageHandlerRecord)
    (eh : List EventHandlerRecord) :
    onModuleInit opts mh eh =
      match (processConsumers mh eh (opts.globalStopOptions.getD {}) {} opts.consumers).2 with
      | .error e =>
          ((processConsumers mh eh (opts.globalStopOptions.getD {}) {} opts.consumers).1,
            .error e)
      | .ok st1 =>
          match (processProducers st1 opts.producers).2 with
          | .error e =>
              ((processConsumers mh eh (opts.globalStopOptions.getD {}) {} opts.consumers).1 ++
                  (processProducers st1 opts.producers).1, .error e)
          | .ok st2 =>
              ((processConsumers mh eh (opts.globalStopOptions.getD {}) {} opts.consumers).1 ++
                  (processProducers st1 opts.producers).1 ++ startEvents st2, .ok st2) := rfl

lemma processConsumers_no_start (mh : List MessageHandlerRecord)
    (eh : List EventHandlerRecord) (gso : StopOptions) :
    ∀ (l : List ConsumerConfig) (st : ServiceState),
      ∀ e ∈ (processConsumers mh eh gso st l).1, e.isStart = false := by
  intro l
  induction l with
  | nil => intro st e he; simp [processConsumers] at he
  | cons cfg rest ih =>
      intro st e he
      by_cases hdup : mapHas st.consumers cfg.name = true
      · rw [processConsumers_cons_dup mh eh gso st cfg rest hdup] at he
        simp at he
      · rw [Bool.not_eq_true] at hdup
        cases hf : findMessageHandler mh cfg.name with
        | none =>
            rw [processConsumers_cons_warn mh eh gso st cfg rest hdup hf] at he
            rcases List.mem_cons.mp he with he | he
            · subst he; rfl
            · exact ih st e he
        | some md =>
            rw [processConsumers_cons_store mh eh gso st cfg rest md hdup hf] at he
            rcases List.mem_cons.mp he with he | he
            · subst he; rfl
            · rcases List.mem_cons.mp he with he | he
              · subst he; rfl
              · exact ih _ e he

lemma processProducers_no_start :
    ∀ (l : List ProducerConfig) (st : ServiceState),
      ∀ e ∈ (processProducers st l).1, e.isStart = false := by
  intro l
  induction l with
  | nil => intro st e he; simp [processProducers] at he
  | cons cfg rest ih =>
      intro st e he
      by_cases hdup : mapHas st.producers cfg.name = true
      · rw [processProducers_cons_dup st cfg rest hdup] at he
        simp at he
      · rw [Bool.not_eq_true] at hdup
        rw [processProducers_cons_store st cfg rest hdup] at he
        rcases List.mem_cons.mp he with he | he
        · subst he; rfl
        · rcases List.mem_cons.mp he with he | he
          · subst he; rfl
          · exact ih _ e he

lemma startEvents_no_construction (st : ServiceState) :
    ∀ e ∈ startEvents st, e.isConstruction = false := by
  intro e he
  simp only [startEvents, List.mem_map] at he
  obtain ⟨p, _, hp⟩ := he
  rw [← hp]
  rfl

/-- C9: the trace of `onModuleInit` splits into a first part containing
no start event and a second part containing no construction or store
event: every consumer and producer entry is constructed and stored before
any consumer's polling loop is started. -/
theorem consumers_start_only_after_registry_built (opts : SqsOptions)
    (mh : List MessageHandlerRecord) (eh : List EventHandlerRecord) :
    ∃ tc ts, (onModuleInit opts mh eh).1 = tc ++ ts ∧
      (∀ e ∈ tc, InitEvent.isStart e = false) ∧
      (∀ e ∈ ts, InitEvent.isConstruction e = false) := by
  rw [onModuleInit_eq]
  cases h1 : (processConsumers mh eh (opts.globalStopOptions.getD {}) {} opts.consumers).2 with
  | error e =>
      refine ⟨(processConsumers mh eh (opts.globalStopOptions.getD {}) {} opts.consumers).1,
        [], by simp, ?_, by simp⟩
      intro x hx
      exact processConsumers_no_start mh eh _ opts.consumers {} x hx
  | ok st1 =>
      cases h2 : (processProducers st1 opts.producers).2 with
      | error e =>
          refine ⟨(processConsumers mh eh (opts.globalStopOptions.getD {}) {} opts.consumers).1 ++
            (processProducers st1 opts.producers).1, [], by simp [h2], ?_, by simp⟩
          intro x hx
          rcases List.mem_append.mp hx with hx | hx
          · exact processConsumers_no_start mh eh _ opts.consumers {} x hx
          · exact processProducers_no_start opts.producers st1 x hx
      | ok st2 =>
          refine ⟨(processConsumers mh eh (opts.globalStopOptions.getD {}) {} opts.consumers).1 ++
            (processProducers st1 opts.producers).1, startEvents st2,
            by simp [h2], ?_, ?_⟩
          · intro x hx
            rcases List.mem_append.mp hx with hx | hx
            · exact processConsumers_no_start mh eh _ opts.consumers {} x hx
            · exact processProducers_no_start opts.producers st1 x hx
          · exact startEvents_no_construction st2

/-! ## C8 and C10: callback and listener wiring of stored consumers -/

lemma attachEventHandlers_eq (md : MessageHandlerRecord) :
    ∀ (evs : List EventHandlerRecord) (c : ConsumerInstance),
      attachEventHandlers c md evs =
        { c with
            listeners := c.listeners ++ evs.map (fun e =>
              (e.meta.eventName,
                ⟨e.discoveredMethod.handler, md.discoveredMethod.parentInstance⟩)) } := by
  intro evs
  induction evs with
  | nil => intro c; simp [attachEventHandlers]
  | cons e rest ih =>
      intro c
      rw [attachEventHandlers, ih]
      simp

/-- The wiring invariant of every stored consumer entry: a matched
message-handler record exists, the one callback chosen by its batch flag
is bound to its handler and parent instance, and the listener list is the
filtered event-handler records each bound to that same parent instance. -/
def wiredFromHandlers (mh : List MessageHandlerRecord) (eh : List EventHandlerRecord)
    (p : QueueName × ConsumerMapValue) : Prop :=
  ∃ md, findMessageHandler mh p.1 = some md ∧
    p.2.inst.handleMessage =
      (if md.meta.batch = some true then none
       else some ⟨md.discoveredMethod.handler, md.discoveredMethod.parentInstance⟩) ∧
    p.2.inst.handleMessageBatch =
      (if md.meta.batch = some true then
        some ⟨md.discoveredMethod.handler, md.discoveredMethod.parentInstance⟩
       else none) ∧
    p.2.inst.listeners =
      (filterEventHandlers eh p.1).map (fun e =>
        (e.meta.eventName,
          ⟨e.discoveredMethod.handler, md.discoveredMethod.parentInstance⟩))

lemma processConsumers_wired (mh : List MessageHandlerRecord)
    (eh : List EventHandlerRecord) (gso : StopOptions) :
    ∀ (l : List ConsumerConfig) (st : ServiceState),
      (∀ p ∈ st.consumers, wiredFromHandlers mh eh p) →
      ∀ st', (processConsumers mh eh gso st l).2 = .ok st' →
        ∀ p ∈ st'.consumers, wiredFromHandlers mh eh p := by
  intro l
  induction l with
  | nil =>
      intro st hinv st' hok p hp
      simp only [processConsumers, Except.ok.injEq] at hok
      subst hok
      exact hinv p hp
  | cons cfg rest ih =>
      intro st hinv st' hok p hp
      by_cases hdup : mapHas st.consumers cfg.name = true
      · rw [processConsumers_cons_dup mh eh gso st cfg rest hdup] at hok
        simp at hok
      · rw [Bool.not_eq_true] at hdup
        cases hf : findMessageHandler mh cfg.name with
        | none =>
            rw [processConsumers_cons_warn mh eh gso st cfg rest hdup hf] at hok
            exact ih st hinv st' hok p hp
        | some md =>
            rw [processConsumers_cons_store mh eh gso st cfg rest md hdup hf] at hok
            refine ih (storeConsumerState eh gso st cfg md) ?_ st' hok p hp
            intro q hq
            simp only [storeConsumerState] at hq
            rcases mem_mapSet _ _ _ q hq with hq' | hq'
            · subst hq'
              refine ⟨md, hf, ?_, ?_, ?_⟩ <;>
                simp [attachEventHandlers_eq, consumerCreate]
            · exact hinv q hq'

lemma processProducers_preserves_consumers :
    ∀ (l : List ProducerConfig) (st st' : ServiceState),
      (processProducers st l).2 = .ok st' → st'.consumers = st.consumers := by
  intro l
  induction l with
  | nil =>
      intro st st' hok
      simp only [processProducers, Except.ok.injEq] at hok
      rw [← hok]
  | cons cfg rest ih =>
      intro st st' hok
      by_cases hdup : mapHas st.producers cfg.name = true
      · rw [processProducers_cons_dup st cfg rest hdup] at hok
        simp at hok
      · rw [Bool.not_eq_true] at hdup
        rw [processProducers_cons_store st cfg rest hdup] at hok
        have h := ih (storeProducerState st cfg) st' hok
        simpa [storeProducerState] using h

lemma onModuleInit_ok_parts (opts : SqsOptions) (mh : List MessageHandlerRecord)
    (eh : List EventHandlerRecord) (st : ServiceState)
    (h : (onModuleInit opts mh eh).2 = .ok st) :
    ∃ st1,
      (processConsumers mh eh (opts.globalStopOptions.getD {}) {} opts.consumers).2
        = .ok st1 ∧
      (processProducers st1 opts.producers).2 = .ok st := by
  rw [onModuleInit_eq] at h
  cases h1 : (processConsumers mh eh (opts.globalStopOptions.getD {}) {} opts.consumers).2 with
  | error e => rw [h1] at h; simp at h
  | ok st1 =>
      rw [h1] at h
      simp only at h
      cases h2 : (processProducers st1 opts.producers).2 with
      | error e => rw [h2] at h; simp at h
      | ok st2 =>
          rw [h2] at h
          simp only [Except.ok.injEq] at h
          exact ⟨st1, rfl, by rw [h2, h]⟩

/-- C8: every consumer entry stored by a successful `onModuleInit` has
exactly one of the two message callbacks wired, chosen by its matched
binding's batch flag: `handleMessageBatch` (and no `handleMessage`) when
the flag is `true`, `handleMessage` (and no `handleMessageBatch`)
otherwise — never both. -/
theorem consumer_wires_exactly_one_callback (opts : SqsOptions)
    (mh : List MessageHandlerRecord) (eh : List EventHandlerRecord)
    (st : ServiceState) (h : (onModuleInit opts mh eh).2 = .ok st) :
    ∀ p ∈ st.consumers, ∃ md, findMessageHandler mh p.1 = some md ∧
      ((md.meta.batch = some true ∧
        p.2.inst.handleMessageBatch =
          some ⟨md.discoveredMethod.handler, md.discoveredMethod.parentInstance⟩ ∧
        p.2.inst.handleMessage = none) ∨
       (md.meta.batch ≠ some true ∧
        p.2.inst.handleMessage =
          some ⟨md.discoveredMethod.handler, md.discoveredMethod.parentInstance⟩ ∧
        p.2.inst.handleMessageBatch = none)) := by
  intro p hp
  obtain ⟨st1, h1, h2⟩ := onModuleInit_ok_parts opts mh eh st h
  have hcons := processProducers_preserves_consumers opts.producers st1 st h2
  have hw := processConsumers_wired mh eh _ opts.consumers {}
    (fun q hq => absurd hq (List.not_mem_nil q)) st1 h1 p (hcons ▸ hp)
  obtain ⟨md, hf, hm, hb, _⟩ := hw
  refine ⟨md, hf, ?_⟩
  by_cases hbatch : md.meta.batch = some true
  · exact Or.inl ⟨hbatch, by rw [hb, if_pos hbatch], by rw [hm, if_pos hbatch]⟩
  · exact Or.inr ⟨hbatch, by rw [hm, if_neg hbatch], by rw [hb, if_neg hbatch]⟩

/-- C8 witness: one consumer `"q"` with a batch-flagged handler — the
stored instance has the batch callback and no single-message callback. -/
theorem consumer_wires_exactly_one_callback_witness :
    ConsumerInstance.handleMessageBatch ⟨some 3, "qu", none, some ⟨5, 1⟩, []⟩
      = some ⟨5, 1⟩ ∧
    ConsumerInstance.handleMessage ⟨some 3, "qu", none, some ⟨5, 1⟩, []⟩ = none := by
  have h := consumer_wires_exactly_one_callback
    ⟨[⟨"q", none, "qu", 3⟩], [], none⟩ [⟨⟨"q", some true⟩, ⟨5, 1⟩⟩] []
    ⟨[("q", ⟨⟨some 3, "qu", none, some ⟨5, 1⟩, []⟩, ⟨none⟩⟩)], []⟩ rfl
    ("q", ⟨⟨some 3, "qu", none, some ⟨5, 1⟩, []⟩, ⟨none⟩⟩) (by simp)
  obtain ⟨md, hf, hcase⟩ := h
  simp [findMessageHandler] at hf
  subst hf
  rcases hcase with ⟨_, hb, hm⟩ | ⟨hne, _, _⟩
  · exact ⟨hb, hm⟩
  · exact absurd rfl hne

/-- C10: every lifecycle event listener attached by a successful
`onModuleInit` is the event-handler function bound to the MATCHED MESSAGE
handler's parent instance: the listener list equals the filtered
event-handler records, each paired with the message-handler binding's
owner, regardless of the event binding's own owner. -/
theorem event_listeners_bound_to_message_handler_instance (opts : SqsOptions)
    (mh : List MessageHandlerRecord) (eh : List EventHandlerRecord)
    (st : ServiceState) (h : (onModuleInit opts mh eh).2 = .ok st) :
    ∀ p ∈ st.consumers, ∃ md, findMessageHandler mh p.1 = some md ∧
      p.2.inst.listeners =
        (filterEventHandlers eh p.1).map (fun e =>
          (e.meta.eventName,
            ⟨e.discoveredMethod.handler, md.discoveredMethod.parentInstance⟩)) := by
  intro p hp
  obtain ⟨st1, h1, h2⟩ := onModuleInit_ok_parts opts mh eh st h
  have hcons := processProducers_preserves_consumers opts.producers st1 st h2
  have hw := processConsumers_wired mh eh _ opts.consumers {}
    (fun q hq => absurd hq (List.not_mem_nil q)) st1 h1 p (hcons ▸ hp)
  obtain ⟨md, hf, _, _, hl⟩ := hw
  exact ⟨md, hf, hl⟩

/-- C10 witness: one consumer `"q"`, a message handler owned by instance
1 and an event handler owned by instance 9 — the attached listener is
bound to instance 1, the message handler's owner. -/
theorem event_listeners_bound_to_message_handler_instance_witness :
    ConsumerInstance.listeners
        ⟨some 3, "qu", some ⟨5, 1⟩, none, [("error", ⟨7, 1⟩)]⟩
      = [("error", (⟨7, 1⟩ : BoundFn))] := by
  have h := event_listeners_bound_to_message_handler_instance
    ⟨[⟨"q", none, "qu", 3⟩], [], none⟩ [⟨⟨"q", none⟩, ⟨5, 1⟩⟩]
    [⟨⟨"q", "error"⟩, ⟨7, 9⟩⟩]
    ⟨[("q", ⟨⟨some 3, "qu", some ⟨5, 1⟩, none, [("error", ⟨7, 1⟩)]⟩, ⟨none⟩⟩)], []⟩ rfl
    ("q", ⟨⟨some 3, "qu", some ⟨5, 1⟩, none, [("error", ⟨7, 1⟩)]⟩, ⟨none⟩⟩) (by simp)
  obtain ⟨md, hf, hl⟩ := h
  simp [findMessageHandler] at hf
  subst hf
  exact hl.trans rfl

/-! ## C3: consumer declarations without a matching handler -/

/-- The consumer declarations that have a matching message handler. -/
def keepHandled (mh : List MessageHandlerRecord) :
    List ConsumerConfig → List ConsumerConfig
  | [] => []
  | c :: rest =>
      match findMessageHandler mh c.name with
      | none => keepHandled mh rest
      | some _ => c :: keepHandled mh rest

/-- Every name stored in the consumer map has a matching handler (this
holds throughout construction: storing requires the handler lookup to
succeed). -/
def storedNamesHandled (mh : List MessageHandlerRecord) (st : ServiceState) : Prop :=
  ∀ n, mapHas st.consumers n = true → (findMessageHandler mh n).isSome = true

lemma storedNamesHandled_store (mh : List MessageHandlerRecord)
    (eh : List EventHandlerRecord) (gso : StopOptions) (st : ServiceState)
    (cfg : ConsumerConfig) (md : MessageHandlerRecord)
    (hf : findMessageHandler mh cfg.name = some md)
    (hinv : storedNamesHandled mh st) :
    storedNamesHandled mh (storeConsumerState eh gso st cfg md) := by
  intro n hn
  simp only [storeConsumerState] at hn
  rcases (mapHas_set _ _ _ _).mp hn with h | h
  · subst h
    rw [hf]
    rfl
  · exact hinv n h

lemma processConsumers_keepHandled (mh : List MessageHandlerRecord)
    (eh : List EventHandlerRecord) (gso : StopOptions) :
    ∀ (l : List ConsumerConfig) (st : ServiceState), storedNamesHandled mh st →
      (processConsumers mh eh gso st (keepHandled mh l)).2 =
        (processConsumers mh eh gso st l).2 := by
  intro l
  induction l with
  | nil => intro st _; rfl
  | cons cfg rest ih =>
      intro st hinv
      cases hf : findMessageHandler mh cfg.name with
      | none =>
          have hdup : mapHas st.consumers cfg.name = false := by
            by_contra hcon
            rw [Bool.not_eq_false] at hcon
            have hs := hinv cfg.name hcon
            rw [hf] at hs
            simp at hs
          simp only [keepHandled, hf]
          rw [processConsumers_cons_warn mh eh gso st cfg rest hdup hf]
          exact ih st hinv
      | some md =>
          simp only [keepHandled, hf]
          by_cases hdup : mapHas st.consumers cfg.name = true
          · rw [processConsumers_cons_dup mh eh gso st cfg (keepHandled mh rest) hdup,
              processConsumers_cons_dup mh eh gso st cfg rest hdup]
          · rw [Bool.not_eq_true] at hdup
            rw [processConsumers_cons_store mh eh gso st cfg (keepHandled mh rest) md hdup hf,
              processConsumers_cons_store mh eh gso st cfg rest md hdup hf]
            exact ih (storeConsumerState eh gso st cfg md)
              (storedNamesHandled_store mh eh gso st cfg md hf hinv)

lemma processConsumers_absent (mh : List MessageHandlerRecord)
    (eh : List EventHandlerRecord) (gso : StopOptions) (n : QueueName)
    (hf : findMessageHandler mh n = none) :
    ∀ (l : List ConsumerConfig) (st : ServiceState), mapGet st.consumers n = none →
      ∀ st', (processConsumers mh eh gso st l).2 = .ok st' →
        mapGet st'.consumers n = none := by
  intro l
  induction l with
  | nil =>
      intro st habs st' hok
      simp only [processConsumers, Except.ok.injEq] at hok
      subst hok
      exact habs
  | cons cfg rest ih =>
      intro st habs st' hok
      by_cases hdup : mapHas st.consumers cfg.name = true
      · rw [processConsumers_cons_dup mh eh gso st cfg rest hdup] at hok
        simp at hok
      · rw [Bool.not_eq_true] at hdup
        cases hfc : findMessageHandler mh cfg.name with
        | none =>
            rw [processConsumers_cons_warn mh eh gso st cfg rest hdup hfc] at hok
            exact ih st habs st' hok
        | some md =>
            rw [processConsumers_cons_store mh eh gso st cfg rest md hdup hfc] at hok
            refine ih (storeConsumerState eh gso st cfg md) ?_ st' hok
            have hne : cfg.name ≠ n := by
              intro hcon
              rw [hcon, hf] at hfc
              simp at hfc
            simp only [storeConsumerState]
            rw [mapGet_set_ne st.consumers cfg.name n _ hne]
            exact habs

lemma processConsumers_warn_mem (mh : List MessageHandlerRecord)
    (eh : List EventHandlerRecord) (gso : StopOptions) (c : ConsumerConfig)
    (hf : findMessageHandler mh c.name = none) :
    ∀ (l : List ConsumerConfig) (st : ServiceState), c ∈ l →
      ∀ st', (processConsumers mh eh gso st l).2 = .ok st' →
        .warn c.name ∈ (processConsumers mh eh gso st l).1 := by
  intro l
  induction l with
  | nil => intro st hc; simp at hc
  | cons cfg rest ih =>
      intro st hc st' hok
      by_cases hdup : mapHas st.consumers cfg.name = true
      · rw [processConsumers_cons_dup mh eh gso st cfg rest hdup] at hok
        simp at hok
      · rw [Bool.not_eq_true] at hdup
        cases hfc : findMessageHandler mh cfg.name with
        | none =>
            rw [processConsumers_cons_warn mh eh gso st cfg rest hdup hfc] at hok ⊢
            rcases List.mem_cons.mp hc with hc | hc
            · rw [hc]
              exact List.mem_cons_self _ _
            · exact List.mem_cons_of_mem _ (ih st hc st' hok)
        | some md =>
            rw [processConsumers_cons_store mh eh gso st cfg rest md hdup hfc] at hok ⊢
            rcases List.mem_cons.mp hc with hc | hc
            · rw [hc] at hf
              rw [hfc] at hf
              simp at hf
            · exact List.mem_cons_of_mem _
                (List.mem_cons_of_mem _ (ih (storeConsumerState eh gso st cfg md) hc st' hok))

/-- C3: a configured consumer whose name has no matching discovered
message handler changes nothing about construction's outcome — the
result equals that of the configuration with all handler-less
declarations removed — and on success the name is absent from the
consumer map while a warning for it was emitted. -/
theorem missing_handler_warns_and_skips (opts : SqsOptions)
    (mh : List MessageHandlerRecord) (eh : List EventHandlerRecord)
    (c : ConsumerConfig) (hmem : c ∈ opts.consumers)
    (hf : findMessageHandler mh c.name = none) :
    (onModuleInit opts mh eh).2 =
      (onModuleInit { opts with consumers := keepHandled mh opts.consumers } mh eh).2 ∧
    (∀ st, (onModuleInit opts mh eh).2 = .ok st →
      mapGet st.consumers c.name = none ∧
      .warn c.name ∈ (onModuleInit opts mh eh).1) := by
  have hempty : storedNamesHandled mh {} := by
    intro n hn
    simp [mapHas, mapGet] at hn
  constructor
  · rw [onModuleInit_eq, onModuleInit_eq]
    dsimp only
    rw [processConsumers_keepHandled mh eh (opts.globalStopOptions.getD {})
      opts.consumers {} hempty]
    cases (processConsumers mh eh (opts.globalStopOptions.getD {}) {} opts.consumers).2 with
    | error e => rfl
    | ok st1 =>
        simp only
        cases (processProducers st1 opts.producers).2 <;> rfl
  · intro st hok
    obtain ⟨st1, h1, h2⟩ := onModuleInit_ok_parts opts mh eh st hok
    have hcons := processProducers_preserves_consumers opts.producers st1 st h2
    constructor
    · rw [hcons]
      exact processConsumers_absent mh eh _ c.name hf opts.consumers {} rfl st1 h1
    · have hwarn := processConsumers_warn_mem mh eh _ c hf opts.consumers {} hmem st1 h1
      rw [onModuleInit_eq, h1]
      simp only
      rw [h2]
      simp only
      exact List.mem_append.mpr (Or.inl (List.mem_append.mpr (Or.inl hwarn)))

/-- C3 witness: consumers `"q"` (no handler) and `"r"` (handled): the
final consumer map lacks `"q"` and the trace holds the warning. -/
theorem missing_handler_warns_and_skips_witness :
    mapGet (ServiceState.consumers
        ⟨[("r", ⟨⟨some 2, "ru", some ⟨5, 1⟩, none, []⟩, ⟨none⟩⟩)], []⟩) "q" = none ∧
    .warn "q" ∈ (onModuleInit ⟨[⟨"q", none, "", 0⟩, ⟨"r", none, "ru", 2⟩], [], none⟩
        [⟨⟨"r", none⟩, ⟨5, 1⟩⟩] []).1 := by
  have h := missing_handler_warns_and_skips
    ⟨[⟨"q", none, "", 0⟩, ⟨"r", none, "ru", 2⟩], [], none⟩
    [⟨⟨"r", none⟩, ⟨5, 1⟩⟩] [] ⟨"q", none, "", 0⟩ (List.mem_cons_self _ _) rfl
  exact h.2 ⟨[("r", ⟨⟨some 2, "ru", some ⟨5, 1⟩, none, []⟩, ⟨none⟩⟩)], []⟩ rfl

/-! ## C2: duplicate consumer names -/

lemma processConsumers_split_ok (mh : List MessageHandlerRecord)
    (eh : List EventHandlerRecord) (gso : StopOptions) :
    ∀ (xs ys : List ConsumerConfig) (st st' : ServiceState),
      (processConsumers mh eh gso st (xs ++ ys)).2 = .ok st' →
      ∃ stx, (processConsumers mh eh gso st xs).2 = .ok stx ∧
        (processConsumers mh eh gso stx ys).2 = .ok st' := by
  intro xs
  induction xs with
  | nil => intro ys st st' hok; exact ⟨st, rfl, hok⟩
  | cons cfg rest ih =>
      intro ys st st' hok
      rw [List.cons_append] at hok
      by_cases hdup : mapHas st.consumers cfg.name = true
      · rw [processConsumers_cons_dup mh eh gso st cfg (rest ++ ys) hdup] at hok
        simp at hok
      · rw [Bool.not_eq_true] at hdup
        cases hf : findMessageHandler mh cfg.name with
        | none =>
            rw [processConsumers_cons_warn mh eh gso st cfg (rest ++ ys) hdup hf] at hok
            obtain ⟨stx, hx, hy⟩ := ih ys st st' hok
            refine ⟨stx, ?_, hy⟩
            rw [processConsumers_cons_warn mh eh gso st cfg rest hdup hf]
            exact hx
        | some md =>
            rw [processConsumers_cons_store mh eh gso st cfg (rest ++ ys) md hdup hf] at hok
            obtain ⟨stx, hx, hy⟩ :=
              ih ys (storeConsumerState eh gso st cfg md) st' hok
            refine ⟨stx, ?_, hy⟩
            rw [processConsumers_cons_store mh eh gso st cfg rest md hdup hf]
            exact hx

lemma processConsumers_has_mono (mh : List MessageHandlerRecord)
    (eh : List EventHandlerRecord) (gso : StopOptions) (n : QueueName) :
    ∀ (l : List ConsumerConfig) (st st' : ServiceState),
      mapHas st.consumers n = true →
      (processConsumers mh eh gso st l).2 = .ok st' →
      mapHas st'.consumers n = true := by
  intro l
  induction l with
  | nil =>
      intro st st' hn hok
      simp only [processConsumers, Except.ok.injEq] at hok
      subst hok
      exact hn
  | cons cfg rest ih =>
      intro st st' hn hok
      by_cases hdup : mapHas st.consumers cfg.name = true
      · rw [processConsumers_cons_dup mh eh gso st cfg rest hdup] at hok
        simp at hok
      · rw [Bool.not_eq_true] at hdup
        cases hf : findMessageHandler mh cfg.name with
        | none =>
            rw [processConsumers_cons_warn mh eh gso st cfg rest hdup hf] at hok
            exact ih st st' hn hok
        | some md =>
            rw [processConsumers_cons_store mh eh gso st cfg rest md hdup hf] at hok
            refine ih (storeConsumerState eh gso st cfg md) st' ?_ hok
            simp only [storeConsumerState]
            exact (mapHas_set _ _ _ _).mpr (Or.inr hn)

lemma processConsumers_error_form (mh : List MessageHandlerRecord)
    (eh : List EventHandlerRecord) (gso : StopOptions) :
    ∀ (l : List ConsumerConfig) (st : ServiceState) (e : String),
      (processConsumers mh eh gso st l).2 = .error e →
      ∃ n, e = dupConsumerMsg n := by
  intro l
  induction l with
  | nil => intro st e he; simp [processConsumers] at he
  | cons cfg rest ih =>
      intro st e he
      by_cases hdup : mapHas st.consumers cfg.name = true
      · rw [processConsumers_cons_dup mh eh gso st cfg rest hdup] at he
        simp only [Except.error.injEq] at he
        exact ⟨cfg.name, he.symm⟩
      · rw [Bool.not_eq_true] at hdup
        cases hf : findMessageHandler mh cfg.name with
        | none =>
            rw [processConsumers_cons_warn mh eh gso st cfg rest hdup hf] at he
            exact ih st e he
        | some md =>
            rw [processConsumers_cons_store mh eh gso st cfg rest md hdup hf] at he
            exact ih (storeConsumerState eh gso st cfg md) e he

/-- Count of `Consumer.create` events for one queue name in a trace. -/
def countCreateConsumer (n : QueueName) : List InitEvent → Nat
  | [] => 0
  | e :: rest =>
      (if e = .createConsumer n then 1 else 0) + countCreateConsumer n rest

lemma countCreateConsumer_zero_of_has (mh : List MessageHandlerRecord)
    (eh : List EventHandlerRecord) (gso : StopOptions) (n : QueueName) :
    ∀ (l : List ConsumerConfig) (st : ServiceState),
      mapHas st.consumers n = true →
      countCreateConsumer n (processConsumers mh eh gso st l).1 = 0 := by
  intro l
  induction l with
  | nil => intro st _; rfl
  | cons cfg rest ih =>
      intro st hn
      by_cases hdup : mapHas st.consumers cfg.name = true
      · rw [processConsumers_cons_dup mh eh gso st cfg rest hdup]
        rfl
      · rw [Bool.not_eq_true] at hdup
        cases hf : findMessageHandler mh cfg.name with
        | none =>
            rw [processConsumers_cons_warn mh eh gso st cfg rest hdup hf]
            simp only [countCreateConsumer, if_neg (by simp : ¬ InitEvent.warn cfg.name = .createConsumer n)]
            rw [ih st hn]
        | some md =>
            have hne : cfg.name ≠ n := by
              intro hcon
              rw [hcon] at hdup
              rw [hn] at hdup
              exact Bool.true_eq_false.mp hdup
            rw [processConsumers_cons_store mh eh gso st cfg rest md hdup hf]
            simp only [countCreateConsumer,
              if_neg (by simp [hne] : ¬ InitEvent.createConsumer cfg.name = .createConsumer n),
              if_neg (by simp : ¬ InitEvent.storeConsumer cfg.name = .createConsumer n)]
            have hn' : mapHas (storeConsumerState eh gso st cfg md).consumers n = true := by
              simp only [storeConsumerState]
              exact (mapHas_set _ _ _ _).mpr (Or.inr hn)
            rw [ih (storeConsumerState eh gso st cfg md) hn']

lemma countCreateConsumer_le_one (mh : List MessageHandlerRecord)
    (eh : List EventHandlerRecord) (gso : StopOptions) (n : QueueName) :
    ∀ (l : List ConsumerConfig) (st : ServiceState),
      countCreateConsumer n (processConsumers mh eh gso st l).1 ≤ 1 := by
  intro l
  induction l with
  | nil => intro st; exact Nat.zero_le 1
  | cons cfg rest ih =>
      intro st
      by_cases hdup : mapHas st.consumers cfg.name = true
      · rw [processConsumers_cons_dup mh eh gso st cfg rest hdup]
        exact Nat.zero_le 1
      · rw [Bool.not_eq_true] at hdup
        cases hf : findMessageHandler mh cfg.name with
        | none =>
            rw [processConsumers_cons_warn mh eh gso st cfg rest hdup hf]
            simp only [countCreateConsumer,
              if_neg (by simp : ¬ InitEvent.warn cfg.name = .createConsumer n)]
            rw [Nat.zero_add]
            exact ih st
        | some md =>
            rw [processConsumers_cons_store mh eh gso st cfg rest md hdup hf]
            simp only [countCreateConsumer,
              if_neg (by simp : ¬ InitEvent.storeConsumer cfg.name = .createConsumer n)]
            by_cases hcn : cfg.name = n
            · rw [if_pos (by rw [hcn])]
              have hn' : mapHas (storeConsumerState eh gso st cfg md).consumers n = true := by
                simp only [storeConsumerState]
                exact (mapHas_set _ _ _ _).mpr (Or.inl hcn.symm)
              rw [Nat.zero_add,
                countCreateConsumer_zero_of_has mh eh gso n rest
                  (storeConsumerState eh gso st cfg md) hn']
            · rw [if_neg (by simp [hcn])]
              rw [Nat.zero_add, Nat.zero_add]
              exact ih (storeConsumerState eh gso st cfg md)

lemma processConsumers_dup_errors (mh : List MessageHandlerRecord)
    (eh : List EventHandlerRecord) (gso : StopOptions) (a b : ConsumerConfig)
    (hname : a.name = b.name)
    (hhandler : (findMessageHandler mh a.name).isSome = true) :
    ∀ (l₁ l₂ l₃ : List ConsumerConfig) (st st' : ServiceState),
      (processConsumers mh eh gso st (l₁ ++ a :: (l₂ ++ b :: l₃))).2 = .ok st' →
      False := by
  intro l₁ l₂ l₃ st st' hok
  obtain ⟨st1, _, h2⟩ := processConsumers_split_ok mh eh gso l₁ _ st st' hok
  by_cases hdup : mapHas st1.consumers a.name = true
  · rw [processConsumers_cons_dup mh eh gso st1 a _ hdup] at h2
    simp at h2
  · rw [Bool.not_eq_true] at hdup
    obtain ⟨md, hmd⟩ := Option.isSome_iff_exists.mp hhandler
    rw [processConsumers_cons_store mh eh gso st1 a _ md hdup hmd] at h2
    obtain ⟨st2, h3, h4⟩ :=
      processConsumers_split_ok mh eh gso l₂ _ (storeConsumerState eh gso st1 a md) st' h2
    have hhas : mapHas st2.consumers b.name = true := by
      refine processConsumers_has_mono mh eh gso b.name l₂ _ st2 ?_ h3
      simp only [storeConsumerState]
      exact (mapHas_set _ _ _ _).mpr (Or.inl hname.symm)
    rw [processConsumers_cons_dup mh eh gso st2 b l₃ hhas] at h4
    simp at h4

/-- C2 (amended): a configuration whose consumer list holds two entries
with the same queue name, where a message-handler binding matches that
name, makes `onModuleInit` throw a duplicate-consumer error, and the
trace holds at most one `Consumer.create` for that name (none for the
second entry). -/
theorem duplicate_consumer_with_handler_fails (opts : SqsOptions)
    (mh : List MessageHandlerRecord) (eh : List EventHandlerRecord)
    (l₁ l₂ l₃ : List ConsumerConfig) (a b : ConsumerConfig)
    (hsplit : opts.consumers = l₁ ++ a :: (l₂ ++ b :: l₃))
    (hname : a.name = b.name)
    (hhandler : (findMessageHandler mh a.name).isSome = true) :
    (∃ n, (onModuleInit opts mh eh).2 = .error (dupConsumerMsg n)) ∧
    countCreateConsumer b.name (onModuleInit opts mh eh).1 ≤ 1 := by
  cases hres : (processConsumers mh eh (opts.globalStopOptions.getD {}) {} opts.consumers).2 with
  | ok st1 =>
      rw [hsplit] at hres
      exact absurd hres
        (fun h => processConsumers_dup_errors mh eh _ a b hname hhandler l₁ l₂ l₃ {} st1 h)
  | error e =>
      obtain ⟨n, hn⟩ :=
        processConsumers_error_form mh eh _ opts.consumers {} e hres
      constructor
      · refine ⟨n, ?_⟩
        rw [onModuleInit_eq, hres, hn]
      · rw [onModuleInit_eq, hres]
        exact countCreateConsumer_le_one mh eh _ b.name opts.consumers {}

/-- C2 witness for the amended claim: two consumer entries named `"q"`
with a matching handler — construction throws the duplicate error and
only the first entry's poller was created. -/
theorem duplicate_consumer_with_handler_fails_witness :
    (onModuleInit ⟨[⟨"q", none, "", 0⟩, ⟨"q", none, "", 0⟩], [], none⟩
        [⟨⟨"q", none⟩, ⟨5, 1⟩⟩] []).2 = .error (dupConsumerMsg "q") ∧
    countCreateConsumer "q"
      (onModuleInit ⟨[⟨"q", none, "", 0⟩, ⟨"q", none, "", 0⟩], [], none⟩
        [⟨⟨"q", none⟩, ⟨5, 1⟩⟩] []).1 ≤ 1 := by
  have h := duplicate_consumer_with_handler_fails
    ⟨[⟨"q", none, "", 0⟩, ⟨"q", none, "", 0⟩], [], none⟩
    [⟨⟨"q", none⟩, ⟨5, 1⟩⟩] [] [] [] [] ⟨"q", none, "", 0⟩ ⟨"q", none, "", 0⟩
    rfl rfl rfl
  exact ⟨rfl, h.2⟩
